import Mathlib

/-!
Verification development for the answer-sheet generator
(`generate_answer_sheets.py`).

The geometry of the program is embedded shallowly: physical lengths
(PDF points) are modelled as exact rationals (the source uses binary
floats; all the geometric claims under study are insensitive to that
difference), Python ints as `Nat`/`Int`, Python lists as `List`,
fallible code as `Option`/error-carrying results.  Python's float
floor-division `//` is modelled by the rational floor, implemented
below as `ratFloor` so that it is kernel-computable.

Source line references are to `src/generate_answer_sheets.py`.
-/

/-- Millimetre in PDF points, exactly as ReportLab's `mm = 72 / 25.4`. -/
def mmQ : ℚ := 72 / 25.4

/-- Floor of a rational, computably (`q.num / q.den` with Euclidean
integer division, which floors for the positive denominator). -/
def ratFloor (q : ℚ) : ℤ := q.num / q.den

/-- Ceiling division on naturals, modelling `math.ceil(a / b)` for the
(small, nonnegative) integers the program divides. -/
def ceilDivNat (a b : ℕ) : ℕ := (a + b - 1) / b

/-- Maximum of a list of naturals, modelling Python's `max` on the
(always nonempty in-scope) option-count lists. -/
def maxList (l : List ℕ) : ℕ := l.foldl max 0

/-- The `PAPERS` dict keys (line 39). -/
inductive Paper where
  | A4
  | LETTER
deriving DecidableEq

/-- `PAPERS = {"A4": A4, "LETTER": letter}` (line 39); ReportLab's
`A4 = (210*mm, 297*mm)`, `letter = (8.5*72, 11*72)`. -/
def PAPERS : Paper → ℚ × ℚ
  | .A4 => (210 * mmQ, 297 * mmQ)
  | .LETTER => (612, 792)

/-- The `Box` dataclass (lines 77-84). -/
structure Box where
  q : ℕ
  opt : ℕ
  x_pt : ℚ
  y_pt : ℚ
  w_pt : ℚ
  h_pt : ℚ
deriving DecidableEq

/-- The layout dict returned by `compute_layout` (lines 148-167).
`question_pfx` stands for the `question_prefix` entry added by `main`
(lines 493-499); the name is abbreviated. -/
structure Layout where
  paper : Paper
  title : String
  page_width_pt : ℚ
  page_height_pt : ℚ
  canonical_w_px : ℕ
  canonical_h_px : ℕ
  num_questions : ℕ
  per_question_option_counts : List ℕ
  options_list : List ℕ
  marker_margin_pt : ℚ
  marker_size_pt : ℚ
  box_size_pt : ℚ
  box_gap_y_pt : ℚ
  opt_label_gap_pt : ℚ
  boxes : List Box
  student_id_x_pt : ℚ
  student_id_y_pt : ℚ
  answer_key : List ℤ
  question_pfx : String
deriving DecidableEq

/-- The inputs of `compute_layout` (line 86-88). -/
structure LayoutParams where
  paper : Paper
  title : String
  num_questions : ℕ
  per_q_counts : List ℕ
  columns : ℕ
  force_columns : Bool
  row_gap_mm : ℚ
  col_gap_mm : ℚ
  box_size_mm : ℚ
deriving DecidableEq

namespace LayoutParams

/-- `W, H = PAPERS[paper]` (line 89). -/
def W (P : LayoutParams) : ℚ := (PAPERS P.paper).1

def H (P : LayoutParams) : ℚ := (PAPERS P.paper).2

/-- `margin = 12 * mm` (line 91). -/
def margin (_P : LayoutParams) : ℚ := 12 * mmQ

/-- `marker_size = 9 * mm` (line 92). -/
def marker_size (_P : LayoutParams) : ℚ := 9 * mmQ

/-- `box_size = box_size_mm * mm` (line 94). -/
def box_size (P : LayoutParams) : ℚ := P.box_size_mm * mmQ

/-- `box_gap_y = 4.0 * mm` (line 95). -/
def box_gap_y (_P : LayoutParams) : ℚ := 4 * mmQ

/-- `opt_label_gap = 2.5 * mm` (line 96). -/
def opt_label_gap (_P : LayoutParams) : ℚ := 2.5 * mmQ

/-- `question_gap_y = 6.0*mm + row_gap_mm * mm` (lines 98, 101). -/
def question_gap_y (P : LayoutParams) : ℚ := 6 * mmQ + P.row_gap_mm * mmQ

/-- `col_gap_x = 10.0*mm + col_gap_mm * mm` (lines 99, 102). -/
def col_gap_x (P : LayoutParams) : ℚ := 10 * mmQ + P.col_gap_mm * mmQ

/-- `top_title_gap = 14 * mm` (line 104). -/
def top_title_gap (_P : LayoutParams) : ℚ := 14 * mmQ

/-- `max_k = max(per_q_counts)` (line 106). -/
def max_k (P : LayoutParams) : ℕ := maxList P.per_q_counts

def usable_top (P : LayoutParams) : ℚ := P.H - P.margin

def usable_bottom (P : LayoutParams) : ℚ := P.margin

def usable_left (P : LayoutParams) : ℚ := P.margin

def usable_right (P : LayoutParams) : ℚ := P.W - P.margin

/-- `top_reserved = marker_size + 6*mm + 10*mm + 6*mm + 10*mm + 4*mm + 2*mm`
(lines 114-116). -/
def top_reserved (P : LayoutParams) : ℚ :=
  P.marker_size + 6 * mmQ + 10 * mmQ + 6 * mmQ + 10 * mmQ + 4 * mmQ + 2 * mmQ

/-- `content_top = (H - margin) - top_reserved` (line 117). -/
def content_top (P : LayoutParams) : ℚ := (P.H - P.margin) - P.top_reserved

/-- `available_h = content_top - usable_bottom` (line 118). -/
def available_h (P : LayoutParams) : ℚ := P.content_top - P.usable_bottom

/-- `q_block_h = max_k*box_size + (max_k-1)*box_gap_y + question_gap_y`
(line 120); the subtraction is on Python ints, hence rational here. -/
def q_block_h (P : LayoutParams) : ℚ :=
  (P.max_k : ℚ) * P.box_size + ((P.max_k : ℚ) - 1) * P.box_gap_y + P.question_gap_y

/-- `rows_fit = int(available_h // q_block_h)` (line 121). -/
def rows_fit (P : LayoutParams) : ℤ := ratFloor (P.available_h / P.q_block_h)

/-- `rows_fit` as a natural number (it is only consumed when positive). -/
def rows_fitN (P : LayoutParams) : ℕ := P.rows_fit.toNat

/-- `cols_used` (lines 125-129). -/
def cols_used (P : LayoutParams) : ℕ :=
  if P.force_columns then P.columns
  else min P.columns (ceilDivNat P.num_questions P.rows_fitN)

/-- `rows = int(math.ceil(num_questions / cols_used))` (lines 127, 130). -/
def rows (P : LayoutParams) : ℕ := ceilDivNat P.num_questions P.cols_used

/-- `col_width = (usable_right - usable_left - (cols_used-1)*col_gap_x) / cols_used`
(line 132). -/
def col_width (P : LayoutParams) : ℚ :=
  (P.usable_right - P.usable_left - ((P.cols_used : ℚ) - 1) * P.col_gap_x)
    / (P.cols_used : ℚ)

end LayoutParams

/-- The cells `cidx` visited by the inner loop of row `r` (lines 137-140):
the loop breaks at the first `q = r*cols_used + cidx + 1` exceeding
`num_questions`. -/
def rowCells (colsUsed numQuestions r : ℕ) : List ℕ :=
  (List.range colsUsed).takeWhile (fun cidx => decide (r * colsUsed + cidx + 1 ≤ numQuestions))

/-- The boxes appended for the cell at row `r`, column `cidx`
(lines 138-146). -/
def cellBoxes (P : LayoutParams) (r cidx : ℕ) : List Box :=
  (List.range (P.per_q_counts.getD (r * P.cols_used + cidx + 1 - 1) 0)).map (fun oi =>
    { q := r * P.cols_used + cidx + 1
      opt := oi
      x_pt := P.usable_left + (cidx : ℚ) * (P.col_width + P.col_gap_x)
      y_pt := (P.content_top - (r : ℚ) * P.q_block_h) - 8 * mmQ
                - (oi : ℚ) * (P.box_size + P.box_gap_y)
      w_pt := P.box_size
      h_pt := P.box_size })

/-- The full box list built by the nested loops (lines 134-146). -/
def gridBoxes (P : LayoutParams) : List Box :=
  (List.range P.rows).flatMap (fun r =>
    (rowCells P.cols_used P.num_questions r).flatMap (fun cidx => cellBoxes P r cidx))

/-- `compute_layout` (lines 86-167).  `raise SystemExit("Layout too
tight.")` when no row fits (lines 122-123) is modelled as `none`. -/
def compute_layout (P : LayoutParams) : Option Layout :=
  if P.rows_fit ≤ 0 then none
  else some
    { paper := P.paper
      title := P.title
      page_width_pt := P.W
      page_height_pt := P.H
      canonical_w_px := 2480
      canonical_h_px := 3508
      num_questions := P.num_questions
      per_question_option_counts := P.per_q_counts
      options_list := P.per_q_counts
      marker_margin_pt := P.margin
      marker_size_pt := P.marker_size
      box_size_pt := P.box_size
      box_gap_y_pt := P.box_gap_y
      opt_label_gap_pt := P.opt_label_gap
      boxes := gridBoxes P
      student_id_x_pt := P.usable_left
      student_id_y_pt := P.usable_top - P.top_title_gap - 2 * mmQ
      answer_key := []
      question_pfx := "" }

/-- `string.ascii_uppercase` as a character list. -/
def ascii_uppercase : List Char := "ABCDEFGHIJKLMNOPQRSTUVWXYZ".data

/-- `letters = list(string.ascii_uppercase)` (line 48): the 26 one-letter
strings. -/
def letterStrings : List String := ascii_uppercase.map (fun c => String.mk [c])

/-- `letters[i // 26] + letters[i % 26]` (line 54). -/
def twoLetterLabel (i : ℕ) : String :=
  letterStrings.getD (i / 26) "" ++ letterStrings.getD (i % 26) ""

/-- `option_labels` (lines 47-56).  The `while` loop appends
`letters[i//26] + letters[i%26]` for `i = 0 .. n-27`; both branches end
with a `[:n]` slice. -/
def option_labels (n : ℕ) : List String :=
  if n ≤ 26 then letterStrings.take n
  else (letterStrings ++ (List.range (n - 26)).map twoLetterLabel).take n

/-- Python `str.strip()` (whitespace at both ends). -/
def pyStrip (s : String) : String :=
  String.mk (((s.data.dropWhile Char.isWhitespace).reverse.dropWhile Char.isWhitespace).reverse)

/-- Python `str.upper()` on the ASCII tokens in scope. -/
def pyUpper (s : String) : String := String.mk (s.data.map Char.toUpper)

/-- Python `str.isdigit()` on the ASCII tokens in scope: nonempty and
all digits. -/
def pyIsDigit (s : String) : Bool := !s.data.isEmpty && s.data.all Char.isDigit

/-- `int(tok)` for a token that passed `isdigit`. -/
def natOfDigits (s : String) : ℕ := s.data.foldl (fun a c => 10 * a + (c.toNat - 48)) 0

/-- Python `str.split(sep)` on a character list (so that it is
structurally recursive and kernel-computable). -/
def splitChar (sep : Char) : List Char → List (List Char)
  | [] => [[]]
  | c :: rest =>
    if c = sep then [] :: splitChar sep rest
    else
      match splitChar sep rest with
      | [] => [[c]]
      | h :: t => (c :: h) :: t

/-- `parse_csv` (lines 44-45): split on commas, strip, drop falsy
(empty) entries. -/
def parse_csv (s : String) : List String :=
  ((splitChar ',' s.data).map (fun t => pyStrip (String.mk t))).filter (fun x => decide (x ≠ ""))

/-- `parse_answer_key` (lines 63-65): the token list is cycled with
`raw[i % len(raw)]` to exactly `num_questions` entries.  An empty token
list makes `i % len(raw)` a division by zero (`none` here). -/
def parse_answer_key (spec : String) (num_questions : ℕ) : Option (List String) :=
  if (parse_csv spec).isEmpty then none
  else some ((List.range num_questions).map (fun i =>
    (parse_csv spec).getD (i % (parse_csv spec).length) ""))

/-- Python `list.index(x)`: index of the first element equal to `x`,
`none` (a `ValueError`) when absent. -/
def listIndex {α : Type} [BEq α] (x : α) : List α → Option ℕ
  | [] => none
  | a :: t => if a == x then some 0 else (listIndex x t).map (fun n => n + 1)

/-- The answer-key token resolution of `main` (lines 487-490):
`int(tok) if tok.isdigit() else option_labels(per_q[i]).index(tok.upper())`.
`list.index` raises `ValueError` when the label is absent (`none`). -/
def decode_token (tok : String) (k : ℕ) : Option ℤ :=
  if pyIsDigit tok then some ((natOfDigits tok : ℕ) : ℤ)
  else (listIndex (pyUpper tok) (option_labels k)).map (fun i => (i : ℤ))

/-- Resolution of the whole key against the per-question counts
(lines 487-490). -/
def resolveKey : List String → List ℕ → Option (List ℤ)
  | [], _ => some []
  | _ :: _, [] => none
  | t :: ts, k :: ks =>
    match decode_token t k, resolveKey ts ks with
    | some v, some rest => some (v :: rest)
    | _, _ => none

/-- The validation loop of `main` (lines 506-508): every resolved entry
must satisfy `0 <= ans < per_q[i]`. -/
def answer_key_in_range : List ℤ → List ℕ → Bool
  | [], _ => true
  | _ :: _, [] => false
  | a :: arest, k :: krest =>
    (decide (0 ≤ a) && decide (a < (k : ℤ))) && answer_key_in_range arest krest

/-- `f"{sid_int:03d}"` (line 539) for nonnegative identifiers. -/
def pad3 (n : ℕ) : String :=
  if (Nat.repr n).length < 3
  then String.mk (List.replicate (3 - (Nat.repr n).length) '0') ++ Nat.repr n
  else Nat.repr n

/-- One `render_sheet` invocation, abstracted to the arguments that
distinguish sheets (the layout and header metadata are fixed per run). -/
inductive RenderCall where
  | sheet (student_id : Option String) (fill_solution : Bool)
deriving DecidableEq

/-- Outcome of a run: the `render_sheet` calls that were issued before
completion or abort, and the fatal error if one was raised. -/
structure RunResult where
  calls : List RenderCall
  error : Option String
deriving DecidableEq

/-- The per-student render calls of the main loop (lines 538-551). -/
def studentCalls (start count : ℕ) : List RenderCall :=
  (List.range count).map (fun j => RenderCall.sheet (some (pad3 (start + j))) false)

/-- `main` from the key-validation loop on (lines 506-551): validation
aborts before any `render_sheet` call; otherwise the solution sheet is
rendered first, then one sheet per student identifier. -/
def render_phase (key : List ℤ) (perQ : List ℕ) (start count : ℕ) : RunResult :=
  if answer_key_in_range key perQ
  then { calls := RenderCall.sheet none true :: studentCalls start count, error := none }
  else { calls := [], error := some "Answer key entry out of range" }

/-- `main` (lines 462-551) reduced to the claims' scope: answer-key
parsing, layout computation, key resolution, key validation, and the
sequence of `render_sheet` calls.  Any Python exception aborts the run
with no render calls. -/
def main_run (P : LayoutParams) (answerKeySpec : String) (start count : ℕ) : RunResult :=
  match parse_answer_key answerKeySpec P.num_questions with
  | none => { calls := [], error := some "ZeroDivisionError" }
  | some tokens =>
    match compute_layout P with
    | none => { calls := [], error := some "Layout too tight." }
    | some _ =>
      match resolveKey tokens P.per_q_counts with
      | none => { calls := [], error := some "ValueError" }
      | some key => render_phase key P.per_q_counts start count

/-- The drawing primitives `render_sheet` issues on the ReportLab
canvas (the order of the list is the order of the calls).  Stroked and
solid-filled answer-box rectangles (`c.rect` at lines 235 and 238-245)
carry the `Box` whose fields are their arguments; the corner markers
(`c.rect` at line 75) are plain filled rectangles.  Font and colour
selection calls (`c.setFont`, `c.setFillColor`, `c.setLineWidth`),
which take constant arguments and draw nothing, are not recorded. -/
inductive DrawOp where
  | rectFill (x y w h : ℚ)
  | strokeBox (b : Box)
  | fillBox (b : Box)
  | text (x y : ℚ) (s : String)
  | textRight (x y : ℚ) (s : String)
  | textCentred (x y : ℚ) (s : String)
  | line (x1 y1 x2 y2 : ℚ)
deriving DecidableEq

/-- `draw_corner_markers` (lines 67-75). -/
def draw_corner_markers (W H margin marker_size : ℚ) : List DrawOp :=
  [DrawOp.rectFill margin margin marker_size marker_size,
   DrawOp.rectFill (W - margin - marker_size) margin marker_size marker_size,
   DrawOp.rectFill margin (H - margin - marker_size) marker_size marker_size,
   DrawOp.rectFill (W - margin - marker_size) (H - margin - marker_size) marker_size marker_size]

/-- `date.today()` read when `exam_date` is falsy (lines 176-177):
`exam_date` is replaced by the ambient current date. -/
def effectiveDate (exam_date today : String) : String :=
  if exam_date = "" then today else exam_date

/-- `header_y = (H - margin) - marker_size - 6*mm` (line 186). -/
def headerY (L : Layout) : ℚ :=
  ((PAPERS L.paper).2 - L.marker_margin_pt) - L.marker_size_pt - 6 * mmQ

/-- `rule_y = header_y - 18` (line 197). -/
def ruleY (L : Layout) : ℚ := headerY L - 18

/-- `title_y = rule_y - 28` (line 202). -/
def titleY (L : Layout) : ℚ := ruleY L - 28

/-- Python `str.rstrip(".")`: drop all trailing dots. -/
def rstripDots (s : String) : String :=
  String.mk ((s.data.reverse.dropWhile (fun c => c == '.')).reverse)

/-- The question label (lines 223-228): `f"{prefix_str}.{q}"` when a
question-number prefix was configured, else `str(q)`. -/
def qlabelOf (pfx : String) (q : ℕ) : String :=
  if pfx = "" then Nat.repr q
  else rstripDots pfx ++ "." ++ Nat.repr q

/-- The draw calls for one answer box (lines 234-251): outline, solid
fill when `fill_solution` and the key entry matches the option index
(`layout["answer_key"][q - 1] == b["opt"]`), then the option label. -/
def boxOps (L : Layout) (fill_solution : Bool) (q : ℕ) (labels : List String) (b : Box) :
    List DrawOp :=
  [DrawOp.strokeBox b]
  ++ (if fill_solution && (L.answer_key.getD (q - 1) (-1) == (b.opt : ℤ))
      then [DrawOp.fillBox b] else [])
  ++ [DrawOp.text (b.x_pt + b.w_pt + L.opt_label_gap_pt) (b.y_pt + 0.5 * mmQ)
        ("(" ++ labels.getD b.opt "" ++ ")")]

/-- The draw calls for one question group (lines 218-251): the `Q ...`
label above the first box, then the per-box calls.  The group is never
empty (groups come from the boxes themselves). -/
def questionOps (L : Layout) (fill_solution : Bool) (q : ℕ) (grp : List Box) : List DrawOp :=
  match grp with
  | [] => []
  | first :: _ =>
    DrawOp.text first.x_pt (first.y_pt + first.h_pt + 2.5 * mmQ)
        ("Q " ++ qlabelOf L.question_pfx q)
      :: grp.flatMap
        (boxOps L fill_solution q
          (option_labels (L.per_question_option_counts.getD (q - 1) 0)))

/-- `sorted(boxes_by_q.keys())` (line 218): the distinct question
indices of the box list, ascending. -/
def renderQs (bs : List Box) : List ℕ :=
  ((bs.map (fun b => b.q)).dedup).insertionSort (fun a b => a ≤ b)

/-- `boxes_by_q[q]` sorted by option index (lines 212-216); Python's
stable `sort` is modelled by insertion sort. -/
def groupFor (bs : List Box) (q : ℕ) : List Box :=
  (bs.filter (fun b => b.q == q)).insertionSort (fun a b => a.opt ≤ b.opt)

/-- `if student_id:` (lines 207-209): drawn only for a non-`None`,
nonempty identifier. -/
def studentIdOps (L : Layout) (student_id : Option String) : List DrawOp :=
  match student_id with
  | none => []
  | some s =>
    if s = "" then []
    else [DrawOp.text L.marker_margin_pt (titleY L - 18) ("Student ID: " ++ s)]

/-- `render_sheet` (lines 169-254) as the list of draw calls it issues,
in order.  `today` models the ambient `date.today()` consulted when
`exam_date` is empty. -/
def render_sheet (L : Layout) (student_id : Option String) (fill_solution : Bool)
    (course_name professor exam_date today : String) : List DrawOp :=
  draw_corner_markers (PAPERS L.paper).1 (PAPERS L.paper).2 L.marker_margin_pt L.marker_size_pt
  ++ (if course_name = "" then []
      else [DrawOp.text L.marker_margin_pt (headerY L) course_name])
  ++ (if professor = "" then []
      else [DrawOp.textRight ((PAPERS L.paper).1 - L.marker_margin_pt) (headerY L) professor])
  ++ [DrawOp.textRight ((PAPERS L.paper).1 - L.marker_margin_pt) (headerY L - 12)
        (effectiveDate exam_date today)]
  ++ [DrawOp.line L.marker_margin_pt (ruleY L) ((PAPERS L.paper).1 - L.marker_margin_pt) (ruleY L)]
  ++ [DrawOp.textCentred ((PAPERS L.paper).1 / 2) (titleY L) L.title]
  ++ studentIdOps L student_id
  ++ (renderQs L.boxes).flatMap (fun q => questionOps L fill_solution q (groupFor L.boxes q))

/-- `main` stores the resolved answer key into the layout (line 487). -/
def withKey (L : Layout) (key : List ℤ) : Layout := { L with answer_key := key }

/-- Is the op a solid fill of the answer box of question `q`? -/
def isFillOfQ (q : ℕ) : DrawOp → Bool
  | DrawOp.fillBox b => b.q == q
  | _ => false

/-- Is the op a solid fill of an answer box? -/
def isFillOp : DrawOp → Bool
  | DrawOp.fillBox _ => true
  | _ => false

/-- Default `Box` for out-of-range list reads in closed statements. -/
def dfltBox : Box := { q := 0, opt := 0, x_pt := 0, y_pt := 0, w_pt := 0, h_pt := 0 }

/-- Default `Layout` for out-of-range `Option.getD` in closed statements. -/
def dfltLayout : Layout :=
  { paper := Paper.A4, title := "", page_width_pt := 0, page_height_pt := 0
    canonical_w_px := 0, canonical_h_px := 0, num_questions := 0
    per_question_option_counts := [], options_list := []
    marker_margin_pt := 0, marker_size_pt := 0, box_size_pt := 0
    box_gap_y_pt := 0, opt_label_gap_pt := 0, boxes := []
    student_id_x_pt := 0, student_id_y_pt := 0, answer_key := [], question_pfx := "" }

/-- Spec scenario inputs: `num_questions=3, options="2,4,3"`, defaults
elsewhere (`--columns 5`, auto mode, 3.5 mm boxes, A4). -/
def P1 : LayoutParams :=
  { paper := Paper.A4, title := "Antworten", num_questions := 3
    per_q_counts := [2, 4, 3], columns := 5, force_columns := false
    row_gap_mm := 0, col_gap_mm := 0, box_size_mm := 3.5 }

/-- Forced-columns inputs whose column slots do not fit the page width:
two forced columns with a 500 mm column gap on A4. -/
def P2 : LayoutParams :=
  { paper := Paper.A4, title := "Antworten", num_questions := 2
    per_q_counts := [1, 1], columns := 2, force_columns := true
    row_gap_mm := 0, col_gap_mm := 500, box_size_mm := 3.5 }

/-- Inputs with a 300 mm box: no row fits on A4. -/
def P3 : LayoutParams :=
  { paper := Paper.A4, title := "Antworten", num_questions := 2
    per_q_counts := [2, 2], columns := 5, force_columns := false
    row_gap_mm := 0, col_gap_mm := 0, box_size_mm := 300 }

/-- The layout computed for `P1`. -/
def L1 : Layout := (compute_layout P1).getD dfltLayout

/-- The layout computed for `P2`. -/
def L2 : Layout := (compute_layout P2).getD dfltLayout

/-- A small fixed layout used to exercise `render_sheet` directly. -/
def L0 : Layout :=
  { dfltLayout with
      num_questions := 1
      per_question_option_counts := [2]
      options_list := [2]
      boxes := [{ q := 1, opt := 0, x_pt := 0, y_pt := 1, w_pt := 1, h_pt := 1 },
                { q := 1, opt := 1, x_pt := 0, y_pt := 0, w_pt := 1, h_pt := 1 }]
      answer_key := [0] }

/-! ## List counting infrastructure -/

lemma countP_flatMap {α β : Type} (p : β → Bool) (f : α → List β) (l : List α) :
    (l.flatMap f).countP p = (l.map (fun a => (f a).countP p)).sum := by
  induction l with
  | nil => simp
  | cons a t ih => simp [List.countP_append, ih]

lemma sum_map_range_succ (f : ℕ → ℕ) (n : ℕ) :
    ((List.range (n + 1)).map f).sum = ((List.range n).map f).sum + f n := by
  simp [List.range_succ]

lemma sum_map_range_add (f : ℕ → ℕ) (a b : ℕ) :
    ((List.range (a + b)).map f).sum
      = ((List.range a).map f).sum + ((List.range b).map (fun j => f (a + j))).sum := by
  induction b with
  | zero => simp
  | succ b ih =>
    rw [show a + (b + 1) = (a + b) + 1 from rfl, sum_map_range_succ, ih,
      sum_map_range_succ]
    omega

lemma takeWhile_lt_range (c m : ℕ) :
    (List.range c).takeWhile (fun j => decide (j < m)) = List.range (min c m) := by
  induction c generalizing m with
  | zero => simp
  | succ c ih =>
    rw [List.range_succ_eq_map, List.takeWhile_cons]
    cases m with
    | zero => simp
    | succ m =>
      have hp : (decide (0 < m + 1)) = true := by simp
      rw [hp]
      simp only [if_true, List.takeWhile_map]
      have hfun : ((fun j => decide (j < m + 1)) ∘ Nat.succ) = (fun j => decide (j < m)) := by
        funext j
        simp [Function.comp, Nat.succ_lt_succ_iff]
      rw [hfun, ih]
      have hmin : min (c + 1) (m + 1) = (min c m) + 1 := by omega
      rw [hmin, List.range_succ_eq_map]

lemma rowCells_eq (c N r : ℕ) : rowCells c N r = List.range (min c (N - r * c)) := by
  unfold rowCells
  have hfun : (fun cidx => decide (r * c + cidx + 1 ≤ N))
      = (fun cidx => decide (cidx < N - r * c)) := by
    funext cidx
    rcases Nat.lt_or_ge cidx (N - r * c) with h | h <;> simp <;> omega
  rw [hfun, takeWhile_lt_range]

lemma sum_chunks (f : ℕ → ℕ) (c N : ℕ) (R : ℕ) :
    ((List.range R).map
        (fun r => ((List.range (min c (N - r * c))).map (fun j => f (r * c + j))).sum)).sum
      = ((List.range (min N (R * c))).map f).sum := by
  induction R with
  | zero => simp
  | succ R ih =>
    rw [sum_map_range_succ, ih]
    by_cases h : N ≤ R * c
    · have h1 : min N (R * c) = N := by omega
      have h2 : N - R * c = 0 := by omega
      have h3 : min N ((R + 1) * c) = N := by
        have : (R + 1) * c = R * c + c := by ring
        omega
      rw [h1, h2, h3]
      simp
    · have h1 : min N (R * c) = R * c := by omega
      have hexp : (R + 1) * c = R * c + c := by ring
      have h3 : min N ((R + 1) * c) = R * c + min c (N - R * c) := by
        rw [hexp]; omega
      rw [h1, h3, sum_map_range_add]

lemma countP_beq_range (k o0 : ℕ) :
    (List.range k).countP (fun oi => oi == o0) = if o0 < k then 1 else 0 := by
  have hc : (List.range k).countP (fun oi => oi == o0) = (List.range k).count o0 := rfl
  rw [hc]
  by_cases h : o0 < k
  · rw [if_pos h]
    exact List.count_eq_one_of_mem (List.nodup_range k) (List.mem_range.mpr h)
  · rw [if_neg h]
    exact List.count_eq_zero_of_not_mem (by simp [List.mem_range]; omega)

lemma cellBoxes_countP (P : LayoutParams) (r cidx q0 o0 : ℕ) :
    (cellBoxes P r cidx).countP (fun b => b.q == q0 && b.opt == o0)
      = if r * P.cols_used + cidx + 1 = q0
            ∧ o0 < P.per_q_counts.getD (r * P.cols_used + cidx) 0
        then 1 else 0 := by
  unfold cellBoxes
  rw [List.countP_map]
  by_cases hq : r * P.cols_used + cidx + 1 = q0
  · have hfun : ((fun b : Box => b.q == q0 && b.opt == o0)
          ∘ (fun oi => ({ q := r * P.cols_used + cidx + 1, opt := oi
                          x_pt := P.usable_left + (cidx : ℚ) * (P.col_width + P.col_gap_x)
                          y_pt := (P.content_top - (r : ℚ) * P.q_block_h) - 8 * mmQ
                                    - (oi : ℚ) * (P.box_size + P.box_gap_y)
                          w_pt := P.box_size, h_pt := P.box_size } : Box)))
        = (fun oi => oi == o0) := by
      funext oi
      simp [Function.comp, hq]
    rw [hfun, countP_beq_range]
    have : r * P.cols_used + cidx + 1 - 1 = r * P.cols_used + cidx := by omega
    rw [this]
    simp [hq]
  · have hzero : ∀ oi ∈ List.range (P.per_q_counts.getD (r * P.cols_used + cidx + 1 - 1) 0),
        ¬ (((fun b : Box => b.q == q0 && b.opt == o0)
          ∘ (fun oi => ({ q := r * P.cols_used + cidx + 1, opt := oi
                          x_pt := P.usable_left + (cidx : ℚ) * (P.col_width + P.col_gap_x)
                          y_pt := (P.content_top - (r : ℚ) * P.q_block_h) - 8 * mmQ
                                    - (oi : ℚ) * (P.box_size + P.box_gap_y)
                          w_pt := P.box_size, h_pt := P.box_size } : Box))) oi) = true := by
      intro oi _
      simp [Function.comp, hq]
    rw [List.countP_eq_zero.mpr hzero]
    simp [hq]

lemma sum_map_range_ind (h : ℕ → ℕ) (t N : ℕ) (hzero : ∀ i, i ≠ t → h i = 0) :
    ((List.range N).map h).sum = if t < N then h t else 0 := by
  induction N with
  | zero => simp
  | succ N ih =>
    rw [sum_map_range_succ, ih]
    by_cases hN : t < N
    · rw [hzero N (by omega), if_pos hN, if_pos (by omega), Nat.add_zero]
    · by_cases hNt : t = N
      · subst hNt
        rw [if_neg (by omega), if_pos (by omega), Nat.zero_add]
      · rw [hzero N (by omega), if_neg hN, if_neg (by omega)]

lemma gridBoxes_countP (P : LayoutParams) (q0 o0 : ℕ)
    (hN : P.num_questions ≤ P.rows * P.cols_used) :
    (gridBoxes P).countP (fun b => b.q == q0 && b.opt == o0)
      = if 1 ≤ q0 ∧ q0 ≤ P.num_questions ∧ o0 < P.per_q_counts.getD (q0 - 1) 0
        then 1 else 0 := by
  have h1 : (gridBoxes P).countP (fun b => b.q == q0 && b.opt == o0)
      = (List.map (fun r =>
          ((List.range (min P.cols_used (P.num_questions - r * P.cols_used))).map
            (fun j => if (r * P.cols_used + j) + 1 = q0
                ∧ o0 < P.per_q_counts.getD (r * P.cols_used + j) 0 then 1 else 0)).sum)
        (List.range P.rows)).sum := by
    unfold gridBoxes
    rw [countP_flatMap]
    apply congrArg List.sum
    apply List.map_congr_left
    intro r _
    rw [countP_flatMap, rowCells_eq]
    apply congrArg List.sum
    apply List.map_congr_left
    intro cidx _
    rw [cellBoxes_countP]
  have h3 : min P.num_questions (P.rows * P.cols_used) = P.num_questions := by omega
  have h5 : (List.map (fun r =>
          ((List.range (min P.cols_used (P.num_questions - r * P.cols_used))).map
            (fun j => if (r * P.cols_used + j) + 1 = q0
                ∧ o0 < P.per_q_counts.getD (r * P.cols_used + j) 0 then 1 else 0)).sum)
        (List.range P.rows)).sum
      = ((List.range P.num_questions).map
          (fun i => if i + 1 = q0 ∧ o0 < P.per_q_counts.getD i 0 then 1 else 0)).sum := by
    have h2 := sum_chunks (fun i => if i + 1 = q0 ∧ o0 < P.per_q_counts.getD i 0 then 1 else 0)
      P.cols_used P.num_questions P.rows
    rw [h3] at h2
    exact h2
  have h4 := sum_map_range_ind
    (fun i => if i + 1 = q0 ∧ o0 < P.per_q_counts.getD i 0 then 1 else 0)
    (q0 - 1) P.num_questions
    (by
      intro i hi
      simp only
      rw [if_neg]
      rintro ⟨hh, -⟩
      omega)
  rw [h1, h5, h4]
  have hbeta : ((fun i => if i + 1 = q0 ∧ o0 < P.per_q_counts.getD i 0 then 1 else 0)
        (q0 - 1) : ℕ)
      = if (q0 - 1) + 1 = q0 ∧ o0 < P.per_q_counts.getD (q0 - 1) 0 then 1 else 0 := rfl
  rw [hbeta]
  split_ifs <;> omega

lemma sum_getD_range (l : List ℕ) :
    ((List.range l.length).map (fun i => l.getD i 0)).sum = l.sum := by
  induction l with
  | nil => simp
  | cons a t ih =>
    rw [List.length_cons, List.range_succ_eq_map, List.map_cons, List.map_map]
    have hfun : ((fun i => (a :: t).getD i 0) ∘ Nat.succ) = (fun i => t.getD i 0) := by
      funext i
      simp
    rw [hfun, List.sum_cons, ih]
    simp

lemma gridBoxes_length (P : LayoutParams)
    (hN : P.num_questions ≤ P.rows * P.cols_used)
    (hlen : P.per_q_counts.length = P.num_questions) :
    (gridBoxes P).length = P.per_q_counts.sum := by
  have h1 : (gridBoxes P).length
      = (List.map (fun r =>
          ((List.range (min P.cols_used (P.num_questions - r * P.cols_used))).map
            (fun j => P.per_q_counts.getD (r * P.cols_used + j) 0)).sum)
        (List.range P.rows)).sum := by
    unfold gridBoxes
    rw [List.length_flatMap]
    apply congrArg List.sum
    apply List.map_congr_left
    intro r _
    simp only [Function.comp_apply]
    rw [List.length_flatMap, rowCells_eq]
    apply congrArg List.sum
    apply List.map_congr_left
    intro cidx _
    simp only [Function.comp_apply]
    simp [cellBoxes]
  have h3 : min P.num_questions (P.rows * P.cols_used) = P.num_questions := by omega
  have h5 : (List.map (fun r =>
          ((List.range (min P.cols_used (P.num_questions - r * P.cols_used))).map
            (fun j => P.per_q_counts.getD (r * P.cols_used + j) 0)).sum)
        (List.range P.rows)).sum
      = ((List.range P.num_questions).map (fun i => P.per_q_counts.getD i 0)).sum := by
    have h2 := sum_chunks (fun i => P.per_q_counts.getD i 0) P.cols_used P.num_questions P.rows
    rw [h3] at h2
    exact h2
  rw [h1, h5, ← hlen, sum_getD_range]

lemma num_le_rows_mul (P : LayoutParams) (hc : 1 ≤ P.cols_used) :
    P.num_questions ≤ P.rows * P.cols_used := by
  have h := Nat.div_add_mod (P.num_questions + P.cols_used - 1) P.cols_used
  have h2 : (P.num_questions + P.cols_used - 1) % P.cols_used < P.cols_used :=
    Nat.mod_lt _ (by omega)
  have h3 : P.cols_used * ((P.num_questions + P.cols_used - 1) / P.cols_used)
      = ((P.num_questions + P.cols_used - 1) / P.cols_used) * P.cols_used :=
    Nat.mul_comm _ _
  unfold LayoutParams.rows ceilDivNat
  omega

lemma one_le_ceilDivNat (a b : ℕ) (ha : 1 ≤ a) (hb : 1 ≤ b) : 1 ≤ ceilDivNat a b := by
  unfold ceilDivNat
  rw [Nat.le_div_iff_mul_le (by omega)]
  omega

lemma one_le_cols_used (P : LayoutParams) (hcols : 1 ≤ P.columns)
    (hq : 1 ≤ P.num_questions) (hrf : 1 ≤ P.rows_fit) : 1 ≤ P.cols_used := by
  unfold LayoutParams.cols_used
  split
  · exact hcols
  · have hrfN : 1 ≤ P.rows_fitN := by
      unfold LayoutParams.rows_fitN
      omega
    have := one_le_ceilDivNat P.num_questions P.rows_fitN hq hrfN
    omega

lemma compute_layout_fields {P : LayoutParams} {L : Layout}
    (h : compute_layout P = some L) :
    1 ≤ P.rows_fit ∧ L.boxes = gridBoxes P
      ∧ L.per_question_option_counts = P.per_q_counts
      ∧ L.num_questions = P.num_questions
      ∧ L.page_width_pt = P.W ∧ L.page_height_pt = P.H
      ∧ L.marker_margin_pt = P.margin ∧ L.paper = P.paper := by
  unfold compute_layout at h
  split at h
  · exact absurd h (by simp)
  · next hcond =>
    injection h with h
    subst h
    exact ⟨by omega, rfl, rfl, rfl, rfl, rfl, rfl, rfl⟩

lemma compute_layout_isSome (P : LayoutParams) (h : 1 ≤ P.rows_fit) :
    (compute_layout P).isSome = true := by
  unfold compute_layout
  rw [if_neg (by omega)]
  rfl

lemma compute_layout_none_iff (P : LayoutParams) :
    compute_layout P = none ↔ P.rows_fit ≤ 0 := by
  unfold compute_layout
  split
  · next hc => simpa using hc
  · next hc => simp [hc]

lemma eq_some_getD {α : Type} (o : Option α) (d : α) (h : o.isSome = true) :
    o = some (o.getD d) := by
  cases o
  · exact absurd h (by simp)
  · rfl

lemma ratFloor_eq_floor (q : ℚ) : ratFloor q = ⌊q⌋ := by
  unfold ratFloor
  exact Rat.floor_def.symm

/-! ## Concrete evaluations for the spec scenario `P1` -/

lemma P1_available_h : P1.available_h = 81360 / 127 := by
  norm_num [LayoutParams.available_h, LayoutParams.content_top, LayoutParams.usable_bottom,
    LayoutParams.H, LayoutParams.margin, LayoutParams.top_reserved, LayoutParams.marker_size,
    P1, PAPERS, mmQ]

lemma P1_q_block_h : P1.q_block_h = 11520 / 127 := by
  have hmk : P1.max_k = 4 := by decide
  simp only [LayoutParams.q_block_h, hmk, LayoutParams.box_size, LayoutParams.box_gap_y,
    LayoutParams.question_gap_y]
  norm_num [P1, mmQ]

lemma P1_rows_fit : P1.rows_fit = 7 := by
  unfold LayoutParams.rows_fit
  rw [ratFloor_eq_floor, P1_available_h, P1_q_block_h]
  rw [show (81360 / 127 : ℚ) / (11520 / 127) = 113 / 16 by norm_num]
  norm_num [Int.floor_eq_iff]

lemma P1_layout_eq : compute_layout P1 = some L1 := by
  have h1 : (compute_layout P1).isSome = true :=
    compute_layout_isSome P1 (by rw [P1_rows_fit]; norm_num)
  unfold L1
  exact eq_some_getD _ _ h1

/-- C1: for every valid input to `compute_layout` (at least one
question, option counts all positive and one per question, at least one
requested column), the returned layout has exactly one `Box` for every
pair `(q, o)` with `1 ≤ q ≤ num_questions` and `o < count[q]`, no `Box`
for any other pair, and the total number of boxes is the sum of the
per-question option counts. -/
theorem compute_layout_box_completeness
    (P : LayoutParams) (L : Layout)
    (hq : 1 ≤ P.num_questions)
    (hlen : P.per_q_counts.length = P.num_questions)
    (_hpos : ∀ k ∈ P.per_q_counts, 1 ≤ k)
    (hcols : 1 ≤ P.columns)
    (hL : compute_layout P = some L) :
    (∀ q o : ℕ,
        L.boxes.countP (fun b => b.q == q && b.opt == o)
          = if 1 ≤ q ∧ q ≤ P.num_questions ∧ o < P.per_q_counts.getD (q - 1) 0
            then 1 else 0)
      ∧ L.boxes.length = P.per_q_counts.sum := by
  obtain ⟨hrf, hboxes, -, -, -, -, -, -⟩ := compute_layout_fields hL
  have hcu : 1 ≤ P.cols_used := one_le_cols_used P hcols hq hrf
  have hNle := num_le_rows_mul P hcu
  rw [hboxes]
  exact ⟨fun q o => gridBoxes_countP P q o hNle, gridBoxes_length P hNle hlen⟩

/-- Spot witness for C1 at the spec scenario (`num_questions = 3`,
option counts `2,4,3`): exactly one box for question 2, option 3, and
`2 + 4 + 3 = 9` boxes in total. -/
theorem compute_layout_box_completeness_spot :
    L1.boxes.countP (fun b => b.q == 2 && b.opt == 3) = 1 ∧ L1.boxes.length = 9 := by
  have h := compute_layout_box_completeness P1 L1 (by decide) (by decide) (by decide)
    (by decide) P1_layout_eq
  constructor
  · rw [h.1 2 3]
    decide
  · rw [h.2]
    decide

lemma P1_rows_fitN : P1.rows_fitN = 7 := by
  unfold LayoutParams.rows_fitN
  rw [P1_rows_fit]
  rfl

/-- C6: when at least one row fits, `compute_layout` uses
`min(columns, ceil(num_questions / rows_fit))` columns in auto mode and
exactly the requested count in forced mode, with
`ceil(num_questions / cols_used)` rows in both; `rows_fit` is the
integer floor-division of the usable content height by the
question-block height, and the layout is returned. -/
theorem cols_rows_policy (P : LayoutParams) (hfit : 1 ≤ P.rows_fit) :
    P.rows_fit = ratFloor (P.available_h / P.q_block_h)
      ∧ (P.force_columns = false →
          P.cols_used = min P.columns (ceilDivNat P.num_questions P.rows_fitN))
      ∧ (P.force_columns = true → P.cols_used = P.columns)
      ∧ P.rows = ceilDivNat P.num_questions P.cols_used
      ∧ (compute_layout P).isSome = true := by
  refine ⟨rfl, ?_, ?_, rfl, compute_layout_isSome P hfit⟩
  · intro h
    unfold LayoutParams.cols_used
    simp [h]
  · intro h
    unfold LayoutParams.cols_used
    simp [h]

/-- Spot witness for C6 at the spec scenario: seven rows fit, auto mode
chooses `min 5 (ceil 3/7) = 1` column and `ceil 3/1 = 3` rows. -/
theorem cols_rows_policy_spot :
    1 ≤ P1.rows_fit ∧ P1.cols_used = 1 ∧ P1.rows = 3
      ∧ (compute_layout P1).isSome = true := by
  have hfit : 1 ≤ P1.rows_fit := by
    rw [P1_rows_fit]
    norm_num
  have h := cols_rows_policy P1 hfit
  refine ⟨hfit, ?_, ?_, h.2.2.2.2⟩
  · rw [h.2.1 rfl, P1_rows_fitN]
    decide
  · have hcu : P1.cols_used = 1 := by
      rw [h.2.1 rfl, P1_rows_fitN]
      decide
    rw [h.2.2.2.1, hcu]
    decide

/-- C7: `compute_layout` raises its fatal error exactly when the usable
content height is smaller than one question-block height
`max_k * box_size + (max_k - 1) * box_gap + question_gap`; otherwise it
returns a layout.  (The block height is positive for every in-range
configuration.) -/
theorem layout_infeasible_iff (P : LayoutParams) (hq : 0 < P.q_block_h) :
    compute_layout P = none ↔
      P.available_h <
        (P.max_k : ℚ) * P.box_size + ((P.max_k : ℚ) - 1) * P.box_gap_y
          + P.question_gap_y := by
  rw [compute_layout_none_iff]
  have hqb : (P.max_k : ℚ) * P.box_size + ((P.max_k : ℚ) - 1) * P.box_gap_y
      + P.question_gap_y = P.q_block_h := rfl
  rw [hqb]
  unfold LayoutParams.rows_fit
  rw [ratFloor_eq_floor]
  constructor
  · intro h
    have h3 : ⌊P.available_h / P.q_block_h⌋ < (1 : ℤ) := by omega
    have h2 := Int.floor_lt.mp h3
    rw [Int.cast_one] at h2
    exact (div_lt_one hq).mp h2
  · intro h
    have h2 : P.available_h / P.q_block_h < 1 := (div_lt_one hq).mpr h
    have h3 : ⌊P.available_h / P.q_block_h⌋ < (1 : ℤ) := by
      apply Int.floor_lt.mpr
      rw [Int.cast_one]
      exact h2
    omega

lemma P3_available_h : P3.available_h = 81360 / 127 := by
  norm_num [LayoutParams.available_h, LayoutParams.content_top, LayoutParams.usable_bottom,
    LayoutParams.H, LayoutParams.margin, LayoutParams.top_reserved, LayoutParams.marker_size,
    P3, PAPERS, mmQ]

lemma P3_q_block_h : P3.q_block_h = 219600 / 127 := by
  have hmk : P3.max_k = 2 := by decide
  simp only [LayoutParams.q_block_h, hmk, LayoutParams.box_size, LayoutParams.box_gap_y,
    LayoutParams.question_gap_y]
  norm_num [P3, mmQ]

/-- Spot witness for C7: with 300 mm boxes on A4 no row fits and
`compute_layout` fails. -/
theorem layout_infeasible_iff_spot : compute_layout P3 = none := by
  have hq : 0 < P3.q_block_h := by
    rw [P3_q_block_h]
    norm_num
  apply (layout_infeasible_iff P3 hq).mpr
  have hqb : (P3.max_k : ℚ) * P3.box_size + ((P3.max_k : ℚ) - 1) * P3.box_gap_y
      + P3.question_gap_y = P3.q_block_h := rfl
  rw [hqb, P3_available_h, P3_q_block_h]
  norm_num

/-- C5 counterexample: a run whose answer key has 1 token for 3
questions is not rejected: the program completes with no error and
renders the solution sheet and the student sheet (the token is cycled). -/
theorem answer_key_length_mismatch_accepted :
    (parse_csv "A").length = 1 ∧ P1.num_questions = 3
      ∧ main_run P1 "A" 1 1
        = { calls := [RenderCall.sheet none true, RenderCall.sheet (some "001") false]
            error := none } := by
  refine ⟨by decide, by decide, ?_⟩
  unfold main_run
  rw [show parse_answer_key "A" P1.num_questions = some ["A", "A", "A"] from by decide]
  rw [P1_layout_eq]
  decide

/-- C5 amended: the program does not reject an answer-key length
mismatch.  `parse_answer_key` cycles the parsed tokens
(`raw[i % len(raw)]`) into exactly `num_questions` entries whenever at
least one token is present (an empty token list is a fatal division by
zero), so a run with a mismatched key length proceeds normally. -/
theorem parse_answer_key_cycles (spec : String) (n : ℕ)
    (hne : (parse_csv spec).length ≠ 0) :
    parse_answer_key spec n
      = some ((List.range n).map (fun i =>
          (parse_csv spec).getD (i % (parse_csv spec).length) ""))
      ∧ ((List.range n).map (fun i =>
          (parse_csv spec).getD (i % (parse_csv spec).length) "")).length = n := by
  constructor
  · unfold parse_answer_key
    have h' : ¬ ((parse_csv spec).isEmpty = true) := by
      rw [List.isEmpty_iff]
      intro hc
      rw [hc] at hne
      exact hne rfl
    rw [if_neg h']
  · simp

/-- Spot witness for the amended C5: two tokens for three questions
cycle into `["A", "B", "A"]`. -/
theorem parse_answer_key_cycles_spot :
    parse_answer_key "A,B" 3 = some ["A", "B", "A"] := by
  rw [(parse_answer_key_cycles "A,B" 3 (by decide)).1]
  decide

lemma answer_key_in_range_iff (key : List ℤ) (perQ : List ℕ)
    (hlen : key.length = perQ.length) :
    answer_key_in_range key perQ = true ↔
      ∀ i, i < key.length → 0 ≤ key.getD i 0 ∧ key.getD i 0 < (perQ.getD i 0 : ℤ) := by
  induction key generalizing perQ with
  | nil => simp [answer_key_in_range]
  | cons a arest ih =>
    cases perQ with
    | nil => simp at hlen
    | cons k krest =>
      simp only [answer_key_in_range, Bool.and_eq_true, decide_eq_true_eq]
      rw [ih krest (by simpa using hlen)]
      constructor
      · rintro ⟨⟨h0, h1⟩, h2⟩ i hi
        cases i with
        | zero => exact ⟨h0, by simpa using h1⟩
        | succ i => simpa using h2 i (by simpa using hi)
      · intro h
        refine ⟨⟨(h 0 (by simp)).1, by simpa using (h 0 (by simp)).2⟩, ?_⟩
        intro i hi
        simpa using h (i + 1) (by simpa using hi)

/-- C4: if any resolved answer-key entry is negative or at least its
question's option count, the run aborts with an error before any
`render_sheet` call; if every entry is in range, validation passes and
rendering proceeds (solution sheet first, then one sheet per student). -/
theorem key_validation_gates_rendering (key : List ℤ) (perQ : List ℕ) (start count : ℕ)
    (hlen : key.length = perQ.length) :
    ((∃ i, i < key.length ∧ (key.getD i 0 < 0 ∨ (perQ.getD i 0 : ℤ) ≤ key.getD i 0)) →
        (render_phase key perQ start count).calls = []
          ∧ (render_phase key perQ start count).error.isSome = true)
      ∧ ((∀ i, i < key.length → 0 ≤ key.getD i 0 ∧ key.getD i 0 < (perQ.getD i 0 : ℤ)) →
        (render_phase key perQ start count).error = none
          ∧ (render_phase key perQ start count).calls
            = RenderCall.sheet none true ::
                (List.range count).map
                  (fun j => RenderCall.sheet (some (pad3 (start + j))) false)) := by
  constructor
  · rintro ⟨i, hi, hbad⟩
    have hfalse : answer_key_in_range key perQ = false := by
      cases h' : answer_key_in_range key perQ with
      | true =>
        have h2 := (answer_key_in_range_iff key perQ hlen).mp h' i hi
        omega
      | false => rfl
    simp [render_phase, hfalse]
  · intro h
    have htrue : answer_key_in_range key perQ = true :=
      (answer_key_in_range_iff key perQ hlen).mpr h
    simp [render_phase, htrue, studentCalls]

/-- Spot witness for C4: the spec-scenario key `[0, 2, 1]` against
counts `[2, 4, 3]` passes validation and the run renders the solution
sheet and students 001 and 002. -/
theorem key_validation_gates_rendering_spot :
    (render_phase [0, 2, 1] [2, 4, 3] 1 2).error = none
      ∧ (render_phase [0, 2, 1] [2, 4, 3] 1 2).calls
        = [RenderCall.sheet none true, RenderCall.sheet (some "001") false,
           RenderCall.sheet (some "002") false] := by
  have h := (key_validation_gates_rendering [0, 2, 1] [2, 4, 3] 1 2 (by decide)).2
    (by decide)
  refine ⟨h.1, ?_⟩
  rw [h.2]
  decide

/-! ## Option-label facts (C3, C10) -/

lemma letterStrings_nodup : letterStrings.Nodup := by decide

lemma letterStrings_len : letterStrings.length = 26 := by decide

lemma letterStrings_data_len : ∀ s ∈ letterStrings, s.data.length = 1 := by decide

set_option maxRecDepth 8000 in
lemma letterStrings_getD_inj : ∀ a, a < 26 → ∀ b, b < 26 →
    letterStrings.getD a "" = letterStrings.getD b "" → a = b := by decide

lemma letterStrings_getD_data_len : ∀ k, k < 26 →
    (letterStrings.getD k "").data.length = 1 := by decide

set_option maxRecDepth 8000 in
lemma twoLetterLabel_data_len : ∀ i, i < 676 → (twoLetterLabel i).data.length = 2 := by
  decide

lemma string_ext {s t : String} (h : s.data = t.data) : s = t := by
  cases s
  cases t
  exact congrArg String.mk h

lemma twoLetterLabel_inj : ∀ i, i < 676 → ∀ j, j < 676 →
    twoLetterLabel i = twoLetterLabel j → i = j := by
  intro i hi j hj heq
  have h1 : i / 26 < 26 := by omega
  have h2 : j / 26 < 26 := by omega
  have h3 : i % 26 < 26 := by omega
  have h4 : j % 26 < 26 := by omega
  have hd := congrArg String.data heq
  rw [show (twoLetterLabel i).data
        = (letterStrings.getD (i / 26) "").data ++ (letterStrings.getD (i % 26) "").data
      from String.data_append _ _] at hd
  rw [show (twoLetterLabel j).data
        = (letterStrings.getD (j / 26) "").data ++ (letterStrings.getD (j % 26) "").data
      from String.data_append _ _] at hd
  have hlen : (letterStrings.getD (i / 26) "").data.length
      = (letterStrings.getD (j / 26) "").data.length := by
    rw [letterStrings_getD_data_len _ h1, letterStrings_getD_data_len _ h2]
  obtain ⟨e1, e2⟩ := List.append_inj hd hlen
  have g1 := letterStrings_getD_inj _ h1 _ h2 (string_ext e1)
  have g2 := letterStrings_getD_inj _ h3 _ h4 (string_ext e2)
  omega

lemma option_labels_nodup (n : ℕ) (hn : n ≤ 702) : (option_labels n).Nodup := by
  unfold option_labels
  split
  · exact List.Nodup.sublist (List.take_sublist _ _) letterStrings_nodup
  · next h =>
    apply List.Nodup.sublist (List.take_sublist _ _)
    rw [List.nodup_append]
    refine ⟨letterStrings_nodup, ?_, ?_⟩
    · apply List.Nodup.map_on
      · intro x hx y hy hxy
        have hx' : x < 676 := by
          have := List.mem_range.mp hx
          omega
        have hy' : y < 676 := by
          have := List.mem_range.mp hy
          omega
        exact twoLetterLabel_inj x hx' y hy' hxy
      · exact List.nodup_range _
    · intro a ha hb
      obtain ⟨i, hi, hfa⟩ := List.mem_map.mp hb
      have hi' : i < 676 := by
        have := List.mem_range.mp hi
        omega
      have hlen2 := twoLetterLabel_data_len i hi'
      have hlen1 := letterStrings_data_len a ha
      rw [← hfa] at hlen1
      omega

lemma option_labels_length (n : ℕ) (hn : n ≤ 702) : (option_labels n).length = n := by
  unfold option_labels
  split
  · next h =>
    rw [List.length_take, letterStrings_len]
    omega
  · next h =>
    rw [List.length_take, List.length_append, List.length_map, List.length_range,
      letterStrings_len]
    omega

lemma letterStrings_upper_digit : ∀ s ∈ letterStrings,
    pyUpper s = s ∧ pyIsDigit s = false := by decide

set_option maxRecDepth 8000 in
lemma twoLetterLabel_upper_digit : ∀ i, i < 676 →
    pyUpper (twoLetterLabel i) = twoLetterLabel i
      ∧ pyIsDigit (twoLetterLabel i) = false := by decide

lemma option_labels_upper_digit (n : ℕ) (hn : n ≤ 702) :
    ∀ lab ∈ option_labels n, pyUpper lab = lab ∧ pyIsDigit lab = false := by
  intro lab hmem
  unfold option_labels at hmem
  split at hmem
  · exact letterStrings_upper_digit lab (List.mem_of_mem_take hmem)
  · next h =>
    have hmem' := List.mem_of_mem_take hmem
    rcases List.mem_append.mp hmem' with hs | ht
    · exact letterStrings_upper_digit lab hs
    · obtain ⟨i, hi, hfa⟩ := List.mem_map.mp ht
      have hi' : i < 676 := by
        have := List.mem_range.mp hi
        omega
      rw [← hfa]
      exact twoLetterLabel_upper_digit i hi'

lemma listIndex_nodup_get {α : Type} [DecidableEq α] (l : List α) (hl : l.Nodup)
    (i : ℕ) (h : i < l.length) :
    listIndex (l.get ⟨i, h⟩) l = some i := by
  induction l generalizing i with
  | nil => simp at h
  | cons a t ih =>
    cases i with
    | zero => simp [listIndex]
    | succ i =>
      have hget : (a :: t).get ⟨i + 1, h⟩ = t.get ⟨i, by simpa using h⟩ := rfl
      rw [hget]
      unfold listIndex
      have hne : ¬ (a == t.get ⟨i, by simpa using h⟩) = true := by
        simp only [beq_iff_eq]
        intro hc
        have hmem : a ∈ t := by
          rw [hc]
          exact List.get_mem t i (by simpa using h)
        exact (List.nodup_cons.mp hl).1 hmem
      rw [if_neg hne, ih (List.nodup_cons.mp hl).2 i (by simpa using h)]
      rfl

/-- C10: for every `n` up to 702 (the last count the two-letter scheme
covers), `option_labels n` has exactly `n` pairwise-distinct labels, so
resolving any produced label by its first position in the list is
unambiguous and returns its own index. -/
theorem option_labels_distinct (n : ℕ) (_hn1 : 1 ≤ n) (hn : n ≤ 702) :
    (option_labels n).length = n ∧ (option_labels n).Nodup
      ∧ ∀ i (h : i < (option_labels n).length),
          listIndex ((option_labels n).get ⟨i, h⟩) (option_labels n) = some i := by
  refine ⟨option_labels_length n hn, option_labels_nodup n hn, ?_⟩
  intro i h
  exact listIndex_nodup_get _ (option_labels_nodup n hn) i h

/-- Spot witness for C10 at the two-letter boundary: 27 labels, all
distinct, and label 26 (`"AA"`) resolves back to index 26. -/
theorem option_labels_distinct_spot :
    (option_labels 27).length = 27
      ∧ listIndex "AA" (option_labels 27) = some 26 := by
  have h := option_labels_distinct 27 (by decide) (by decide)
  refine ⟨h.1, ?_⟩
  have h26 : (26 : ℕ) < (option_labels 27).length := by
    rw [h.1]
    decide
  have hget : (option_labels 27).get ⟨26, h26⟩ = "AA" := by
    rw [List.get_eq_getElem, ← List.getD_eq_getElem (option_labels 27) "" h26]
    decide
  rw [← hget]
  exact h.2.2 26 h26

/-- C3: encoding an option index as its letter label and decoding it
back through the answer-key parser (which upper-cases the token and
resolves it by list position against the same labelling scheme) returns
the original index, for every option count up to 702 — in particular
for all counts from 1 to 30; purely numeric tokens decode directly as
zero-based indices. -/
theorem answer_key_roundtrip :
    (∀ k, k ≤ 702 → ∀ i (h : i < (option_labels k).length),
        decode_token ((option_labels k).get ⟨i, h⟩) k = some (i : ℤ))
      ∧ (∀ s k, pyIsDigit s = true →
        decode_token s k = some ((natOfDigits s : ℕ) : ℤ)) := by
  constructor
  · intro k hk i h
    have hmem : (option_labels k).get ⟨i, h⟩ ∈ option_labels k := List.get_mem _ _ _
    obtain ⟨hup, hdig⟩ := option_labels_upper_digit k hk _ hmem
    unfold decode_token
    rw [if_neg (by rw [hdig]; exact Bool.false_ne_true)]
    rw [hup, listIndex_nodup_get _ (option_labels_nodup k hk) i h]
    rfl
  · intro s k hdig
    unfold decode_token
    rw [if_pos hdig]

/-- Spot witness for C3 at the two-letter boundary (`k = 27`,
`i = 26 ↦ "AA" ↦ 26`) and on a numeric token. -/
theorem answer_key_roundtrip_spot :
    decode_token "AA" 27 = some 26 ∧ decode_token "2" 27 = some 2 := by
  have h := answer_key_roundtrip
  have h26 : (26 : ℕ) < (option_labels 27).length := by
    rw [option_labels_length 27 (by decide)]
    decide
  have hget : (option_labels 27).get ⟨26, h26⟩ = "AA" := by
    rw [List.get_eq_getElem, ← List.getD_eq_getElem (option_labels 27) "" h26]
    decide
  constructor
  · have := h.1 27 (by decide) 26 h26
    rw [hget] at this
    exact this
  · have := h.2 "2" 27 (by decide)
    rw [this]
    decide

/-- C9 counterexample: `render_sheet` is not a pure function of
(layout, identifier, reveal flag, header metadata) when the exam-date
field is empty — the rendered output then depends on the ambient
current date (`date.today()`, lines 176-177): the same arguments on two
different days give different output. -/
theorem render_sheet_ambient_date :
    render_sheet L0 none false "" "" "" "01. January 2024"
      ≠ render_sheet L0 none false "" "" "" "02. January 2024" := by
  intro hEq
  have h := congrArg (List.countP (fun op => match op with
    | DrawOp.textRight _ _ s => s == "01. January 2024"
    | _ => false)) hEq
  revert h
  decide

/-- C9 amended: `render_sheet` is a pure function of (layout, student
identifier, reveal flag, header metadata) whenever the exam-date field
is nonempty; with an empty exam date the output additionally depends on
the ambient current date.  (The model is functional, so the input
layout is never mutated by construction.) -/
theorem render_sheet_pure_of_date (L : Layout) (sid : Option String) (fill : Bool)
    (course professor exam_date t1 t2 : String) (hd : exam_date ≠ "") :
    render_sheet L sid fill course professor exam_date t1
      = render_sheet L sid fill course professor exam_date t2 := by
  unfold render_sheet effectiveDate
  rw [if_neg hd, if_neg hd]

/-- Spot witness for the amended C9: with a fixed nonempty exam date
the ambient date is irrelevant. -/
theorem render_sheet_pure_of_date_spot :
    render_sheet L0 none false "" "" "01. June 2024" "01. January 2024"
      = render_sheet L0 none false "" "" "01. June 2024" "02. January 2024" :=
  render_sheet_pure_of_date L0 none false "" "" "01. June 2024"
    "01. January 2024" "02. January 2024" (by decide)

/-! ## Geometry facts (C2) -/

lemma foldl_max_init_le (l : List ℕ) (a : ℕ) : a ≤ l.foldl max a := by
  induction l generalizing a with
  | nil => simp
  | cons x t ih =>
    rw [List.foldl_cons]
    exact le_trans (le_max_left a x) (ih _)

lemma mem_le_foldl_max (l : List ℕ) (a x : ℕ) (hx : x ∈ l) : x ≤ l.foldl max a := by
  induction l generalizing a with
  | nil => cases hx
  | cons y t ih =>
    rw [List.foldl_cons]
    rcases List.mem_cons.mp hx with rfl | hxt
    · exact le_trans (le_max_right a x) (foldl_max_init_le t _)
    · exact ih _ hxt

lemma mem_le_maxList {l : List ℕ} {x : ℕ} (hx : x ∈ l) : x ≤ maxList l :=
  mem_le_foldl_max l 0 x hx

lemma getD_mem {α : Type} {l : List α} {i : ℕ} (d : α) (h : i < l.length) :
    l.getD i d ∈ l := by
  rw [List.getD_eq_getElem l d h]
  exact List.getElem_mem h

lemma gridBoxes_mem {P : LayoutParams} {b : Box} (hb : b ∈ gridBoxes P) :
    ∃ r cidx oi, r < P.rows ∧ cidx < P.cols_used
      ∧ r * P.cols_used + cidx + 1 ≤ P.num_questions
      ∧ oi < P.per_q_counts.getD (r * P.cols_used + cidx) 0
      ∧ b = { q := r * P.cols_used + cidx + 1
              opt := oi
              x_pt := P.usable_left + (cidx : ℚ) * (P.col_width + P.col_gap_x)
              y_pt := (P.content_top - (r : ℚ) * P.q_block_h) - 8 * mmQ
                        - (oi : ℚ) * (P.box_size + P.box_gap_y)
              w_pt := P.box_size
              h_pt := P.box_size } := by
  unfold gridBoxes at hb
  rw [List.mem_flatMap] at hb
  obtain ⟨r, hr, hb⟩ := hb
  rw [rowCells_eq, List.mem_flatMap] at hb
  obtain ⟨cidx, hcidx, hb⟩ := hb
  rw [List.mem_range] at hr hcidx
  unfold cellBoxes at hb
  rw [List.mem_map] at hb
  obtain ⟨oi, hoi, hbeq⟩ := hb
  rw [List.mem_range] at hoi
  refine ⟨r, cidx, oi, hr, by omega, by omega, ?_, hbeq.symm⟩
  have hidx : r * P.cols_used + cidx + 1 - 1 = r * P.cols_used + cidx := by omega
  rw [hidx] at hoi
  exact hoi

lemma P2_available_h : P2.available_h = 81360 / 127 := by
  norm_num [LayoutParams.available_h, LayoutParams.content_top, LayoutParams.usable_bottom,
    LayoutParams.H, LayoutParams.margin, LayoutParams.top_reserved, LayoutParams.marker_size,
    P2, PAPERS, mmQ]

lemma P2_q_block_h : P2.q_block_h = 3420 / 127 := by
  have hmk : P2.max_k = 1 := by decide
  simp only [LayoutParams.q_block_h, hmk, LayoutParams.box_size, LayoutParams.box_gap_y,
    LayoutParams.question_gap_y]
  norm_num [P2, mmQ]

lemma P2_rows_fit : P2.rows_fit = 23 := by
  unfold LayoutParams.rows_fit
  rw [ratFloor_eq_floor, P2_available_h, P2_q_block_h]
  rw [show (81360 / 127 : ℚ) / (3420 / 127) = 452 / 19 by norm_num]
  norm_num [Int.floor_eq_iff]

lemma P2_layout_eq : compute_layout P2 = some L2 := by
  have h1 : (compute_layout P2).isSome = true :=
    compute_layout_isSome P2 (by rw [P2_rows_fit]; norm_num)
  unfold L2
  exact eq_some_getD _ _ h1

lemma P2_cols_used : P2.cols_used = 2 := by decide

lemma P2_rows : P2.rows = 1 := by decide

/-- C2 counterexample: for the accepted forced-columns input `P2`
(two forced columns with a 500 mm column gap on A4), `compute_layout`
succeeds but the box of question 2 starts and ends beyond
`page_width - margin`: containment fails on the x axis. -/
theorem box_containment_violation :
    (compute_layout P2).isSome = true
      ∧ L2.page_width_pt - L2.marker_margin_pt
          < (L2.boxes.getD 1 dfltBox).x_pt + (L2.boxes.getD 1 dfltBox).w_pt := by
  obtain ⟨-, hb, -, -, hW, -, hm, -⟩ := compute_layout_fields P2_layout_eq
  refine ⟨by rw [P2_layout_eq]; rfl, ?_⟩
  have hspine : L2.boxes.getD 1 dfltBox
      = { q := 0 * P2.cols_used + 1 + 1
          opt := 0
          x_pt := P2.usable_left + ((1 : ℕ) : ℚ) * (P2.col_width + P2.col_gap_x)
          y_pt := (P2.content_top - ((0 : ℕ) : ℚ) * P2.q_block_h) - 8 * mmQ
                    - ((0 : ℕ) : ℚ) * (P2.box_size + P2.box_gap_y)
          w_pt := P2.box_size
          h_pt := P2.box_size } := by
    rw [hb]
    unfold gridBoxes
    rw [P2_rows]
    rw [show List.range 1 = [0] from rfl]
    simp only [List.flatMap_cons, List.flatMap_nil, List.append_nil]
    rw [show rowCells P2.cols_used P2.num_questions 0 = [0, 1] from by
      rw [P2_cols_used]
      decide]
    simp only [List.flatMap_cons, List.flatMap_nil, List.append_nil]
    unfold cellBoxes
    rw [show P2.per_q_counts.getD (0 * P2.cols_used + 0 + 1 - 1) 0 = 1 from by
      rw [P2_cols_used]
      decide]
    rw [show P2.per_q_counts.getD (0 * P2.cols_used + 1 + 1 - 1) 0 = 1 from by
      rw [P2_cols_used]
      decide]
    rw [show List.range 1 = [0] from rfl]
    simp only [List.map_cons, List.map_nil, List.cons_append, List.nil_append]
    rfl
  rw [hspine, hW, hm]
  simp only
  unfold LayoutParams.usable_left LayoutParams.col_width LayoutParams.col_gap_x
    LayoutParams.usable_right LayoutParams.usable_left LayoutParams.box_size
    LayoutParams.W LayoutParams.margin
  rw [P2_cols_used]
  norm_num [P2, PAPERS, mmQ]

set_option maxHeartbeats 1600000 in
/-- C2 amended: containment holds whenever the chosen grid actually
fits the page: for nonnegative gap parameters, a positive box size of
at most 55 mm with `box_size + row_gap ≥ 2` mm, a box no wider than the
computed column slot (`box_size ≤ col_width`), and a row count within
the rows that vertically fit (`rows ≤ rows_fit`), every box rectangle
lies within `[margin, page_dimension - margin]` on both axes.  Without
these conditions the code places boxes outside the printable area (see
the counterexample). -/
theorem box_containment_of_fits (P : LayoutParams) (L : Layout)
    (hq : 1 ≤ P.num_questions)
    (hlen : P.per_q_counts.length = P.num_questions)
    (hpos : ∀ k ∈ P.per_q_counts, 1 ≤ k)
    (hrg : 0 ≤ P.row_gap_mm)
    (hcg : 0 ≤ P.col_gap_mm)
    (hbs : 0 < P.box_size_mm)
    (hbs55 : P.box_size_mm ≤ 55)
    (hbot : 2 ≤ P.box_size_mm + P.row_gap_mm)
    (hfitx : P.box_size ≤ P.col_width)
    (hrows : P.rows ≤ P.rows_fitN)
    (hL : compute_layout P = some L) :
    ∀ b ∈ L.boxes,
      L.marker_margin_pt ≤ b.x_pt
        ∧ b.x_pt + b.w_pt ≤ L.page_width_pt - L.marker_margin_pt
        ∧ L.marker_margin_pt ≤ b.y_pt
        ∧ b.y_pt + b.h_pt ≤ L.page_height_pt - L.marker_margin_pt := by
  obtain ⟨hrf, hboxes, -, -, hWf, hHf, hmf, -⟩ := compute_layout_fields hL
  intro b hb
  rw [hboxes] at hb
  obtain ⟨r, cidx, oi, hr, hcidx, hqN, hoi, rfl⟩ := gridBoxes_mem hb
  rw [hWf, hHf, hmf]
  dsimp only
  have hmm : (0 : ℚ) < mmQ := by norm_num [mmQ]
  have hbs' : 0 < P.box_size := by
    unfold LayoutParams.box_size
    exact mul_pos hbs hmm
  have hbg : 0 < P.box_gap_y := by
    unfold LayoutParams.box_gap_y
    linarith
  have hcga : 0 ≤ P.col_gap_x := by
    unfold LayoutParams.col_gap_x
    nlinarith
  have hcpos : 1 ≤ P.cols_used := by
    by_contra hc
    have hc0 : P.cols_used = 0 := by omega
    have hcw0 : P.col_width = 0 := by
      unfold LayoutParams.col_width
      rw [hc0]
      simp
    rw [hcw0] at hfitx
    linarith
  have hcQ : (1 : ℚ) ≤ (P.cols_used : ℚ) := by exact_mod_cast hcpos
  have hcne : (P.cols_used : ℚ) ≠ 0 := by linarith
  have hcw : (P.cols_used : ℚ) * P.col_width
      = P.usable_right - P.usable_left - ((P.cols_used : ℚ) - 1) * P.col_gap_x := by
    unfold LayoutParams.col_width
    field_simp
  have hidxN : r * P.cols_used + cidx < P.num_questions := by omega
  have hkmem : P.per_q_counts.getD (r * P.cols_used + cidx) 0 ∈ P.per_q_counts :=
    getD_mem 0 (by rw [hlen]; omega)
  have hk_le : P.per_q_counts.getD (r * P.cols_used + cidx) 0 ≤ P.max_k :=
    mem_le_maxList hkmem
  have hmk1 : 1 ≤ P.max_k := by
    have h0mem : P.per_q_counts.getD 0 0 ∈ P.per_q_counts :=
      getD_mem 0 (by rw [hlen]; omega)
    exact le_trans (hpos _ h0mem) (mem_le_maxList h0mem)
  have hmkQ : (1 : ℚ) ≤ (P.max_k : ℚ) := by exact_mod_cast hmk1
  have hoiQ : (oi : ℚ) ≤ (P.max_k : ℚ) - 1 := by
    have h1 : oi + 1 ≤ P.max_k := by omega
    have h2 : ((oi + 1 : ℕ) : ℚ) ≤ (P.max_k : ℚ) := by exact_mod_cast h1
    push_cast at h2
    linarith
  have hqg : 0 < P.question_gap_y := by
    unfold LayoutParams.question_gap_y
    nlinarith
  have hqb_pos : 0 < P.q_block_h := by
    unfold LayoutParams.q_block_h
    have h1 : 0 < (P.max_k : ℚ) * P.box_size := by nlinarith
    have h2 : 0 ≤ ((P.max_k : ℚ) - 1) * P.box_gap_y := by nlinarith
    linarith
  have h0rf : (0 : ℤ) ≤ P.rows_fit := by omega
  have hrfN : (P.rows_fitN : ℚ) * P.q_block_h ≤ P.available_h := by
    have h1 : ((P.rows_fitN : ℕ) : ℚ) = ((P.rows_fit : ℤ) : ℚ) := by
      unfold LayoutParams.rows_fitN
      exact_mod_cast congrArg (fun z : ℤ => (z : ℚ)) (Int.toNat_of_nonneg h0rf)
    rw [h1]
    unfold LayoutParams.rows_fit
    rw [ratFloor_eq_floor]
    have h2 : ((⌊P.available_h / P.q_block_h⌋ : ℤ) : ℚ) ≤ P.available_h / P.q_block_h :=
      Int.floor_le _
    have h3 := mul_le_mul_of_nonneg_right h2 (le_of_lt hqb_pos)
    rw [div_mul_cancel₀ _ (ne_of_gt hqb_pos)] at h3
    exact h3
  have hrowsQ : (P.rows : ℚ) * P.q_block_h ≤ P.available_h := by
    have hc : ((P.rows : ℕ) : ℚ) ≤ ((P.rows_fitN : ℕ) : ℚ) := by exact_mod_cast hrows
    have := mul_le_mul_of_nonneg_right hc (le_of_lt hqb_pos)
    linarith
  have hrQ : (r : ℚ) ≤ (P.rows : ℚ) - 1 := by
    have h2 : ((r + 1 : ℕ) : ℚ) ≤ (P.rows : ℚ) := by exact_mod_cast hr
    push_cast at h2
    linarith
  have hcidxQ : (cidx : ℚ) ≤ (P.cols_used : ℚ) - 1 := by
    have h2 : ((cidx + 1 : ℕ) : ℚ) ≤ (P.cols_used : ℚ) := by exact_mod_cast hcidx
    push_cast at h2
    linarith
  have hcw_pos : 0 < P.col_width := lt_of_lt_of_le hbs' hfitx
  have hcwg : 0 ≤ P.col_width + P.col_gap_x := by linarith
  have htr : P.top_reserved = 47 * mmQ := by
    unfold LayoutParams.top_reserved LayoutParams.marker_size
    ring
  have hbs55' : P.box_size ≤ 55 * mmQ := by
    unfold LayoutParams.box_size
    exact mul_le_mul_of_nonneg_right hbs55 (le_of_lt hmm)
  have hbot' : 8 * mmQ ≤ P.box_size + P.question_gap_y := by
    have h1 := mul_le_mul_of_nonneg_right hbot (le_of_lt hmm)
    unfold LayoutParams.box_size LayoutParams.question_gap_y
    ring_nf
    ring_nf at h1
    linarith
  have hul : P.usable_left = P.margin := rfl
  have hur : P.usable_right = P.W - P.margin := rfl
  have hub : P.usable_bottom = P.margin := rfl
  have hav : P.available_h = P.content_top - P.usable_bottom := rfl
  have hct : P.content_top = (P.H - P.margin) - P.top_reserved := rfl
  refine ⟨?_, ?_, ?_, ?_⟩
  · have h1 : 0 ≤ (cidx : ℚ) * (P.col_width + P.col_gap_x) :=
      mul_nonneg (Nat.cast_nonneg _) hcwg
    linarith
  · have h1 : (cidx : ℚ) * (P.col_width + P.col_gap_x)
        ≤ ((P.cols_used : ℚ) - 1) * (P.col_width + P.col_gap_x) :=
      mul_le_mul_of_nonneg_right hcidxQ hcwg
    have h2 : ((P.cols_used : ℚ) - 1) * (P.col_width + P.col_gap_x) + P.col_width
        = P.usable_right - P.usable_left := by linear_combination hcw
    linarith
  · have h1 : (oi : ℚ) * (P.box_size + P.box_gap_y)
        ≤ ((P.max_k : ℚ) - 1) * (P.box_size + P.box_gap_y) :=
      mul_le_mul_of_nonneg_right hoiQ (by linarith)
    have h2 : ((P.max_k : ℚ) - 1) * (P.box_size + P.box_gap_y)
        = P.q_block_h - P.question_gap_y - P.box_size := by
      unfold LayoutParams.q_block_h
      ring
    have h3 : (r : ℚ) * P.q_block_h ≤ ((P.rows : ℚ) - 1) * P.q_block_h :=
      mul_le_mul_of_nonneg_right hrQ (le_of_lt hqb_pos)
    linarith
  · have h1 : 0 ≤ (r : ℚ) * P.q_block_h :=
      mul_nonneg (Nat.cast_nonneg _) (le_of_lt hqb_pos)
    have h2 : 0 ≤ (oi : ℚ) * (P.box_size + P.box_gap_y) :=
      mul_nonneg (Nat.cast_nonneg _) (by linarith)
    linarith

lemma P1_cols_used : P1.cols_used = 1 := by
  unfold LayoutParams.cols_used
  rw [P1_rows_fitN]
  decide

lemma P1_rows : P1.rows = 3 := by
  unfold LayoutParams.rows
  rw [P1_cols_used]
  decide

lemma P1_fitx : P1.box_size ≤ P1.col_width := by
  unfold LayoutParams.box_size LayoutParams.col_width LayoutParams.usable_right
    LayoutParams.usable_left LayoutParams.W LayoutParams.margin LayoutParams.col_gap_x
  rw [P1_cols_used]
  norm_num [P1, PAPERS, mmQ]

/-- Spot witness for the amended C2 on the spec scenario, whose grid
fits: the first box of the layout respects the left and right margins. -/
theorem box_containment_of_fits_spot :
    L1.marker_margin_pt ≤ (L1.boxes.getD 0 dfltBox).x_pt
      ∧ (L1.boxes.getD 0 dfltBox).x_pt + (L1.boxes.getD 0 dfltBox).w_pt
          ≤ L1.page_width_pt - L1.marker_margin_pt := by
  have hmem : L1.boxes.getD 0 dfltBox ∈ L1.boxes := by
    apply getD_mem
    have hb : L1.boxes = gridBoxes P1 := (compute_layout_fields P1_layout_eq).2.1
    have hcu : 1 ≤ P1.cols_used := by
      rw [P1_cols_used]
    rw [hb, gridBoxes_length P1 (num_le_rows_mul P1 hcu) (by decide)]
    decide
  have h := box_containment_of_fits P1 L1 (by decide) (by decide) (by decide)
    (by norm_num [P1]) (by norm_num [P1]) (by norm_num [P1]) (by norm_num [P1])
    (by norm_num [P1]) P1_fitx (by rw [P1_rows, P1_rows_fitN]; decide) P1_layout_eq
  exact ⟨(h _ hmem).1, (h _ hmem).2.1⟩

/-! ## Render counting (C8) -/

lemma countP_congr_mem {α : Type} {l : List α} {p q : α → Bool}
    (h : ∀ a ∈ l, p a = q a) : l.countP p = l.countP q := by
  induction l with
  | nil => rfl
  | cons a t ih =>
    rw [List.countP_cons, List.countP_cons, h a (List.mem_cons_self _ _),
      ih (fun x hx => h x (List.mem_cons_of_mem _ hx))]

lemma sum_map_ite_countP {α : Type} (l : List α) (p : α → Bool) :
    (l.map (fun a => if p a then 1 else 0)).sum = l.countP p := by
  induction l with
  | nil => rfl
  | cons a t ih =>
    rw [List.map_cons, List.sum_cons, List.countP_cons, ih]
    by_cases h : p a = true <;> simp [h] <;> omega

lemma sum_map_eq_of_single {l : List ℕ} {g : ℕ → ℕ} {q0 : ℕ} (hl : l.Nodup)
    (hq : q0 ∈ l) (hz : ∀ q ∈ l, q ≠ q0 → g q = 0) : (l.map g).sum = g q0 := by
  induction l with
  | nil => cases hq
  | cons a t ih =>
    rw [List.map_cons, List.sum_cons]
    rcases List.mem_cons.mp hq with rfl | hqt
    · have hzt : ∀ x ∈ t.map g, x = 0 := by
        intro x hx
        obtain ⟨q, hqmem, rfl⟩ := List.mem_map.mp hx
        apply hz q (List.mem_cons_of_mem _ hqmem)
        intro hcon
        subst hcon
        exact (List.nodup_cons.mp hl).1 hqmem
      rw [List.sum_eq_zero hzt]
      omega
    · have ha0 : g a = 0 := by
        apply hz a (List.mem_cons_self _ _)
        intro hcon
        subst hcon
        exact (List.nodup_cons.mp hl).1 hqt
      rw [ha0, ih (List.nodup_cons.mp hl).2 hqt
        (fun x hx hne => hz x (List.mem_cons_of_mem _ hx) hne)]
      omega

lemma countP_fill_nil_of_forall {f : Box → Bool} {l : List DrawOp}
    (h : ∀ op ∈ l, ∀ b2 : Box, op ≠ DrawOp.fillBox b2) :
    l.countP (fun op => match op with
      | DrawOp.fillBox b => f b
      | _ => false) = 0 := by
  apply List.countP_eq_zero.mpr
  intro a ha
  cases a with
  | fillBox b => exact absurd rfl (h _ ha b)
  | rectFill x y w h2 => simp
  | strokeBox b => simp
  | text x y s => simp
  | textRight x y s => simp
  | textCentred x y s => simp
  | line x1 y1 x2 y2 => simp

lemma groupFor_mem_q {bs : List Box} {q : ℕ} {b : Box} (hb : b ∈ groupFor bs q) :
    b.q = q := by
  unfold groupFor at hb
  have hb2 := (List.perm_insertionSort _ _).mem_iff.mp hb
  have hb3 := List.mem_filter.mp hb2
  simpa using hb3.2

lemma groupFor_countP (bs : List Box) (q : ℕ) (p : Box → Bool) :
    (groupFor bs q).countP p = bs.countP (fun b => p b && (b.q == q)) := by
  unfold groupFor
  rw [(List.perm_insertionSort _ _).countP_eq p, List.countP_filter]

lemma renderQs_nodup (bs : List Box) : (renderQs bs).Nodup := by
  unfold renderQs
  exact (List.perm_insertionSort _ _).nodup_iff.mpr (List.nodup_dedup _)

lemma mem_renderQs {bs : List Box} {q : ℕ} :
    q ∈ renderQs bs ↔ q ∈ bs.map (fun b => b.q) := by
  unfold renderQs
  rw [(List.perm_insertionSort _ _).mem_iff, List.mem_dedup]

lemma boxOps_countP (L : Layout) (fill : Bool) (q : ℕ) (labels : List String) (b : Box)
    (f : Box → Bool) :
    (boxOps L fill q labels b).countP (fun op => match op with
        | DrawOp.fillBox b2 => f b2
        | _ => false)
      = if (fill && (L.answer_key.getD (q - 1) (-1) == (b.opt : ℤ))) && f b
        then 1 else 0 := by
  unfold boxOps
  by_cases hg : (fill && (L.answer_key.getD (q - 1) (-1) == (b.opt : ℤ))) = true <;>
    by_cases hf : f b = true
  · rw [if_pos hg, if_pos (by rw [hg, hf]; rfl)]
    simp [List.countP_append, List.countP_cons, hf]
  · rw [if_pos hg, if_neg (by rw [hg, Bool.true_and]; exact hf)]
    have hf' : f b = false := Bool.eq_false_iff.mpr hf
    simp [List.countP_append, List.countP_cons, hf']
  · rw [if_neg hg, if_neg (by rw [Bool.eq_false_iff.mpr hg, Bool.false_and]; simp)]
    simp [List.countP_append, List.countP_cons]
  · rw [if_neg hg, if_neg (by rw [Bool.eq_false_iff.mpr hg, Bool.false_and]; simp)]
    simp [List.countP_append, List.countP_cons]

lemma questionOps_countP (L : Layout) (fill : Bool) (q : ℕ) (grp : List Box)
    (f : Box → Bool) :
    (questionOps L fill q grp).countP (fun op => match op with
        | DrawOp.fillBox b2 => f b2
        | _ => false)
      = grp.countP
          (fun b => (fill && (L.answer_key.getD (q - 1) (-1) == (b.opt : ℤ))) && f b) := by
  unfold questionOps
  cases grp with
  | nil => rfl
  | cons first rest =>
    rw [List.countP_cons, countP_flatMap]
    have hmap : (first :: rest).map (fun b =>
          (boxOps L fill q
            (option_labels (L.per_question_option_counts.getD (q - 1) 0)) b).countP
            (fun op => match op with
              | DrawOp.fillBox b2 => f b2
              | _ => false))
        = (first :: rest).map (fun b =>
            if (fill && (L.answer_key.getD (q - 1) (-1) == (b.opt : ℤ))) && f b
            then 1 else 0) :=
      List.map_congr_left (fun b _ => boxOps_countP L fill q _ b f)
    rw [hmap, sum_map_ite_countP]
    simp

lemma render_sheet_countP (L : Layout) (sid : Option String) (fill : Bool)
    (c p d t : String) (f : Box → Bool) :
    (render_sheet L sid fill c p d t).countP (fun op => match op with
        | DrawOp.fillBox b => f b
        | _ => false)
      = ((renderQs L.boxes).map (fun q => (groupFor L.boxes q).countP
          (fun b => (fill && (L.answer_key.getD (q - 1) (-1) == (b.opt : ℤ))) && f b))).sum := by
  unfold render_sheet
  simp only [List.countP_append]
  have hA : (draw_corner_markers (PAPERS L.paper).1 (PAPERS L.paper).2 L.marker_margin_pt
      L.marker_size_pt).countP (fun op => match op with
        | DrawOp.fillBox b => f b
        | _ => false) = 0 := rfl
  have hB : (if c = "" then ([] : List DrawOp)
        else [DrawOp.text L.marker_margin_pt (headerY L) c]).countP
      (fun op => match op with
        | DrawOp.fillBox b => f b
        | _ => false) = 0 := by
    split <;> rfl
  have hC : (if p = "" then ([] : List DrawOp)
        else [DrawOp.textRight ((PAPERS L.paper).1 - L.marker_margin_pt) (headerY L) p]).countP
      (fun op => match op with
        | DrawOp.fillBox b => f b
        | _ => false) = 0 := by
    split <;> rfl
  have hG : (studentIdOps L sid).countP (fun op => match op with
      | DrawOp.fillBox b => f b
      | _ => false) = 0 := by
    cases sid with
    | none => rfl
    | some s =>
      by_cases hs : s = ""
      · subst hs
        rfl
      · have h2 : studentIdOps L (some s)
            = [DrawOp.text L.marker_margin_pt (titleY L - 18) ("Student ID: " ++ s)] := by
          unfold studentIdOps
          show (if s = "" then ([] : List DrawOp)
            else [DrawOp.text L.marker_margin_pt (titleY L - 18) ("Student ID: " ++ s)])
              = [DrawOp.text L.marker_margin_pt (titleY L - 18) ("Student ID: " ++ s)]
          rw [if_neg hs]
        rw [h2]
        rfl
  have hH : ((renderQs L.boxes).flatMap
        (fun q => questionOps L fill q (groupFor L.boxes q))).countP
      (fun op => match op with
        | DrawOp.fillBox b => f b
        | _ => false)
      = ((renderQs L.boxes).map (fun q => (groupFor L.boxes q).countP
          (fun b => (fill && (L.answer_key.getD (q - 1) (-1) == (b.opt : ℤ))) && f b))).sum := by
    rw [countP_flatMap]
    apply congrArg List.sum
    apply List.map_congr_left
    intro q _
    exact questionOps_countP L fill q (groupFor L.boxes q) f
  have hD : ([DrawOp.textRight ((PAPERS L.paper).1 - L.marker_margin_pt) (headerY L - 12)
      (effectiveDate d t)] : List DrawOp).countP (fun op => match op with
        | DrawOp.fillBox b => f b
        | _ => false) = 0 := rfl
  have hE : ([DrawOp.line L.marker_margin_pt (ruleY L)
      ((PAPERS L.paper).1 - L.marker_margin_pt) (ruleY L)] : List DrawOp).countP
      (fun op => match op with
        | DrawOp.fillBox b => f b
        | _ => false) = 0 := rfl
  have hF : ([DrawOp.textCentred ((PAPERS L.paper).1 / 2) (titleY L) L.title] :
      List DrawOp).countP (fun op => match op with
        | DrawOp.fillBox b => f b
        | _ => false) = 0 := rfl
  rw [hA, hB, hC, hD, hE, hF, hG, hH]
  omega

lemma fillBox_mem_render_sheet {L : Layout} {sid : Option String} {fill : Bool}
    {c p d t : String} {b : Box}
    (hb : DrawOp.fillBox b ∈ render_sheet L sid fill c p d t) :
    fill = true ∧ L.answer_key.getD (b.q - 1) (-1) = (b.opt : ℤ) := by
  unfold render_sheet at hb
  rcases List.mem_append.mp hb with hb2 | hbH
  case inl =>
    rcases List.mem_append.mp hb2 with hb3 | hbG
    case inr =>
      unfold studentIdOps at hbG
      revert hbG
      cases sid with
      | none =>
        intro hbG
        simp at hbG
      | some s =>
        intro hbG
        revert hbG
        split <;> intro hbG <;> simp at hbG
    rcases List.mem_append.mp hb3 with hb4 | hbF
    case inr => simp at hbF
    rcases List.mem_append.mp hb4 with hb5 | hbE
    case inr => simp at hbE
    rcases List.mem_append.mp hb5 with hb6 | hbD
    case inr => simp at hbD
    rcases List.mem_append.mp hb6 with hb7 | hbC
    case inr =>
      revert hbC
      split <;> intro hbC <;> simp at hbC
    rcases List.mem_append.mp hb7 with hbA | hbB
    · simp [draw_corner_markers] at hbA
    · revert hbB
      split <;> intro hbB <;> simp at hbB
  obtain ⟨q, hqmem, hb⟩ := List.mem_flatMap.mp hbH
  unfold questionOps at hb
  rcases hgl : groupFor L.boxes q with _ | ⟨first, rest⟩
  · rw [hgl] at hb
    simp at hb
  · rw [hgl] at hb
    rcases List.mem_cons.mp hb with heq | hb2
    · simp at heq
    · obtain ⟨b2, hb2mem, hb3⟩ := List.mem_flatMap.mp hb2
      unfold boxOps at hb3
      rcases List.mem_append.mp hb3 with h12 | h3
      · rcases List.mem_append.mp h12 with h1 | h2
        · simp at h1
        · revert h2
          split
          · next hguard =>
            intro h2
            simp at h2
            rw [Bool.and_eq_true, beq_iff_eq] at hguard
            have hb2q : b2.q = q := groupFor_mem_q (by rw [hgl]; exact hb2mem)
            rw [h2, hb2q]
            exact ⟨hguard.1, hguard.2⟩
          · intro h2
            simp at h2
      · simp at h3

/-- C8: for a computed layout carrying a validated answer key, the
solution render (`fill_solution = true`) draws exactly one solid box
fill per question, and every solid box fill is over the box whose
option index equals that question's answer-key entry; with
`fill_solution = false` no box is filled in any render of any layout. -/
theorem solution_fill_fidelity (P : LayoutParams) (L : Layout) (key : List ℤ)
    (sid : Option String) (course prof dt today : String)
    (hq : 1 ≤ P.num_questions)
    (hlen : P.per_q_counts.length = P.num_questions)
    (hcols : 1 ≤ P.columns)
    (hL : compute_layout P = some L)
    (hkeylen : key.length = P.num_questions)
    (hvalid : ∀ i, i < P.num_questions →
        0 ≤ key.getD i (-1) ∧ key.getD i (-1) < (P.per_q_counts.getD i 0 : ℤ)) :
    (∀ q0, 1 ≤ q0 → q0 ≤ P.num_questions →
        (render_sheet (withKey L key) sid true course prof dt today).countP (isFillOfQ q0)
          = 1)
      ∧ (∀ b : Box,
          DrawOp.fillBox b ∈ render_sheet (withKey L key) sid true course prof dt today →
            key.getD (b.q - 1) (-1) = (b.opt : ℤ))
      ∧ (∀ (M : Layout) (sid2 : Option String) (c2 p2 d2 t2 : String),
          (render_sheet M sid2 false c2 p2 d2 t2).countP isFillOp = 0) := by
  obtain ⟨hrf, hboxes, -, -, -, -, -, -⟩ := compute_layout_fields hL
  have hcu : 1 ≤ P.cols_used := one_le_cols_used P hcols hq hrf
  have hNle := num_le_rows_mul P hcu
  refine ⟨?_, ?_, ?_⟩
  · intro q0 hq01 hq0N
    have hcongr : (render_sheet (withKey L key) sid true course prof dt today).countP
        (isFillOfQ q0)
        = (render_sheet (withKey L key) sid true course prof dt today).countP
          (fun op => match op with
            | DrawOp.fillBox b => (b.q == q0 : Bool)
            | _ => false) :=
      countP_congr_mem (fun a _ => by cases a <;> rfl)
    have hrs : (render_sheet (withKey L key) sid true course prof dt today).countP
        (fun op => match op with
          | DrawOp.fillBox b => (b.q == q0 : Bool)
          | _ => false)
        = ((renderQs (gridBoxes P)).map (fun q => (groupFor (gridBoxes P) q).countP
            (fun b => (true && (key.getD (q - 1) (-1) == (b.opt : ℤ)))
              && (b.q == q0)))).sum := by
      have h2 := render_sheet_countP (withKey L key) sid true course prof dt today
        (fun b : Box => (b.q == q0))
      rw [show (withKey L key).boxes = gridBoxes P from hboxes] at h2
      exact h2
    rw [hcongr, hrs]
    have h0 := hvalid (q0 - 1) (by omega)
    set v := (key.getD (q0 - 1) (-1)).toNat with hv
    have he : key.getD (q0 - 1) (-1) = (v : ℤ) := by
      rw [hv]
      exact (Int.toNat_of_nonneg h0.1).symm
    have hvlt : v < P.per_q_counts.getD (q0 - 1) 0 := by omega
    have hcount := gridBoxes_countP P q0 v hNle
    rw [if_pos ⟨hq01, hq0N, hvlt⟩] at hcount
    have hpred : ∀ b : Box,
        (((true && (key.getD (q0 - 1) (-1) == (b.opt : ℤ))) && (b.q == q0))
            && (b.q == q0))
          = ((b.q == q0) && (b.opt == v)) := by
      intro b
      rw [he, Bool.true_and]
      by_cases hbq : (b.q == q0) = true
      · by_cases hbo : (b.opt == v) = true
        · have hz1 : ((v : ℤ) == (b.opt : ℤ)) = true := by
            rw [beq_iff_eq] at hbo ⊢
            omega
          rw [hbq, hbo, hz1]
          rfl
        · have hbo' : (b.opt == v) = false := Bool.eq_false_iff.mpr hbo
          have hne : b.opt ≠ v := by
            intro hcon
            exact hbo (by rw [beq_iff_eq]; exact hcon)
          have hz1 : ((v : ℤ) == (b.opt : ℤ)) = false := by
            apply beq_eq_false_iff_ne.mpr
            omega
          rw [hbq, hbo', hz1]
          rfl
      · have hbq' := Bool.eq_false_iff.mpr hbq
        rw [hbq']
        simp
    have hq0mem : q0 ∈ renderQs (gridBoxes P) := by
      rw [mem_renderQs]
      have hpos2 : 0 < (gridBoxes P).countP (fun b => b.q == q0 && b.opt == v) := by
        omega
      obtain ⟨b, hbmem, hbp⟩ := List.countP_pos_iff.mp hpos2
      rw [Bool.and_eq_true] at hbp
      exact List.mem_map.mpr ⟨b, hbmem, by simpa using hbp.1⟩
    have hz : ∀ q ∈ renderQs (gridBoxes P), q ≠ q0 →
        (groupFor (gridBoxes P) q).countP
          (fun b => (true && (key.getD (q - 1) (-1) == (b.opt : ℤ))) && (b.q == q0)) = 0 := by
      intro q hqm hne
      apply List.countP_eq_zero.mpr
      intro b hbm
      have hbq := groupFor_mem_q hbm
      simp [hbq, hne]
    rw [sum_map_eq_of_single (renderQs_nodup (gridBoxes P)) hq0mem hz]
    have hgq0 : (groupFor (gridBoxes P) q0).countP
        (fun b => (true && (key.getD (q0 - 1) (-1) == (b.opt : ℤ))) && (b.q == q0)) = 1 := by
      rw [groupFor_countP]
      rw [countP_congr_mem (fun b _ => hpred b)]
      exact hcount
    exact hgq0
  · intro b hbmem
    exact (fillBox_mem_render_sheet hbmem).2
  · intro M sid2 c2 p2 d2 t2
    have hcongr : (render_sheet M sid2 false c2 p2 d2 t2).countP isFillOp
        = (render_sheet M sid2 false c2 p2 d2 t2).countP
          (fun op => match op with
            | DrawOp.fillBox _ => true
            | _ => false) :=
      countP_congr_mem (fun a _ => by cases a <;> rfl)
    have h2 : (render_sheet M sid2 false c2 p2 d2 t2).countP
        (fun op => match op with
          | DrawOp.fillBox _ => true
          | _ => false)
        = ((renderQs M.boxes).map (fun q => (groupFor M.boxes q).countP
            (fun b => (false && (M.answer_key.getD (q - 1) (-1) == (b.opt : ℤ)))
              && true))).sum :=
      render_sheet_countP M sid2 false c2 p2 d2 t2 (fun _ => true)
    rw [hcongr, h2]
    apply List.sum_eq_zero
    intro x hx
    obtain ⟨q, hqm, rfl⟩ := List.mem_map.mp hx
    apply List.countP_eq_zero.mpr
    intro b2 hbm
    simp

/-- Spot witness for C8 at the spec scenario with resolved key
`[0, 2, 1]`: the solution render fills exactly one box for question 2,
and a `fill_solution = false` render fills none. -/
theorem solution_fill_fidelity_spot :
    (render_sheet (withKey L1 [0, 2, 1]) none true "c" "p" "d" "t").countP (isFillOfQ 2) = 1
      ∧ (render_sheet L0 (some "001") false "c" "p" "d" "t").countP isFillOp = 0 := by
  have h := solution_fill_fidelity P1 L1 [0, 2, 1] none "c" "p" "d" "t"
    (by decide) (by decide) (by decide) P1_layout_eq (by decide) (by decide)
  exact ⟨h.1 2 (by decide) (by decide), h.2.2 L0 (some "001") "c" "p" "d" "t"⟩
